import Mathlib

/-!
Verification of the selfhost_s3 object store and SigV4 validator.

This file gives a shallow embedding, in Lean 4, of the two core components
of the Notifuse/selfhost_s3 repository:

* the filesystem-backed object store (`internal/storage`): key-to-path
  resolution, path-traversal validation, and the Get/Head/Put/Delete/List
  operations over an explicit filesystem-tree state, and
* the AWS Signature V4 request validator (`internal/auth/signature.go`):
  header parsing, timestamp-window checking and the full canonical-request /
  string-to-sign / HMAC-SHA256 signature computation.

Conventions of the embedding:

* the target platform is Linux, so `filepath` separators are `'/'`,
  `filepath.FromSlash` is the identity and string comparisons on paths are
  byte comparisons (Lean `String` comparisons agree on these inputs);
* Go machine integers are modelled as `Nat`/`Int`, with `% 2^32` taken
  explicitly where 32-bit overflow matters (SHA-256);
* filesystem state is an explicit tree (`Ent`); directory children are kept
  sorted by name, the canonical form that matches Go's sorted `ReadDir`
  order used by `filepath.Walk`;
* fallible operations return `Except`/`Option`; the sentinel errors
  `ErrNotFound`/`ErrInvalidPath` and generic wrapped errors of the source
  become the closed enum `StorageErr`.
-/

namespace SelfhostS3

/-! ## Go string helpers -/

/-- The NUL character. -/
def nulChar : Char := Char.ofNat 0

/-- Split a character list at every occurrence of `c` (Go `strings.Split`
with a one-character separator; empty fields kept, `""` gives `[""]`). -/
def splitCharList (c : Char) : List Char → List (List Char)
  | [] => [[]]
  | x :: xs =>
    if x = c then [] :: splitCharList c xs
    else
      match splitCharList c xs with
      | s :: rest => (x :: s) :: rest
      | [] => [[x]]

/-- Go `strings.Split` with a one-character separator. -/
def splitCharStr (c : Char) (s : String) : List String :=
  (splitCharList c s.toList).map String.mk

/-- Go `strings.HasPrefix`. -/
def startsWithStr (s pre : String) : Bool :=
  pre.toList.isPrefixOf s.toList

/-- Lexicographic (byte-order) comparison of character lists; on valid
UTF-8, code-point order and Go's byte order agree. -/
def ltCharList : List Char → List Char → Bool
  | [], [] => false
  | [], _ :: _ => true
  | _ :: _, [] => false
  | a :: as, b :: bs =>
    if a.toNat < b.toNat then true
    else if b.toNat < a.toNat then false
    else ltCharList as bs

/-- Go string `<`. -/
def ltStr (a b : String) : Bool := ltCharList a.toList b.toList

/-- `strings.TrimPrefix key "/"`: drop one leading `/` when present. -/
def trimLeadSlash (key : String) : String :=
  if startsWithStr key "/" then String.mk (key.toList.drop 1) else key

/-- ASCII lower-casing of a string (`strings.ToLower`; all strings the
store compares this way are ASCII). -/
def lowerStr (s : String) : String := String.mk (s.toList.map Char.toLower)

/-! ## Path model: Go `path/filepath` on Linux -/

/-- One pass of Go `filepath.Clean`'s element processing: `""` and `"."`
elements vanish, `".."` pops the last kept element (and vanishes at the
root of a rooted path), anything else is kept.  The accumulator holds the
kept elements in reverse order. -/
def cleanSegsAux (rooted : Bool) : List String → List String → List String
  | [], acc => acc.reverse
  | c :: rest, acc =>
    if c = "" ∨ c = "." then cleanSegsAux rooted rest acc
    else if c = ".." then
      match acc with
      | [] => if rooted then cleanSegsAux rooted rest [] else cleanSegsAux rooted rest [".."]
      | a :: tl =>
        if a = ".." then cleanSegsAux rooted rest (".." :: a :: tl)
        else cleanSegsAux rooted rest tl
    else cleanSegsAux rooted rest (c :: acc)

/-- Go `filepath.Clean` (Linux, `'/'` separator). -/
def cleanPath (p : String) : String :=
  if p = "" then "."
  else
    let rooted := startsWithStr p "/"
    let segs := cleanSegsAux rooted (splitCharStr '/' p) []
    if rooted then "/" ++ String.intercalate "/" segs
    else if segs = [] then "." else String.intercalate "/" segs

/-- Go `filepath.Join`: join the non-empty elements with `/` and `Clean`
the result (joining from the first non-empty element, as Go does, gives the
same string because `Clean` collapses duplicate separators). -/
def goJoin (elems : List String) : String :=
  let es := elems.filter (fun e => e ≠ "")
  if es = [] then "" else cleanPath (String.intercalate "/" es)

/-- Go `filepath.Abs`: `Clean` an absolute path, otherwise join onto the
working directory. -/
def goAbs (cwd p : String) : String :=
  if startsWithStr p "/" then cleanPath p else goJoin [cwd, p]

/-- The `/`-separated components of a path, empty components dropped.  On a
`Clean`-normalized absolute path this is exactly its component list. -/
def segsOf (p : String) : List String :=
  (splitCharStr '/' p).filter (fun s => s ≠ "")

/-! ## Storage errors and key resolution (`internal/storage`) -/

/-- The closed error type of the store: the two sentinel errors
`ErrNotFound` and `ErrInvalidPath` of the source, and `ioError` for every
wrapped generic filesystem error. -/
inductive StorageErr where
  | notFound
  | invalidPath
  | ioError
deriving DecidableEq, Repr

/-- `Storage.keyToPath`: strip one leading slash, then
`filepath.Join(basePath, bucket, filepath.FromSlash(key))` (`FromSlash` is
the identity on Linux). -/
def keyToPath (basePath bucket key : String) : String :=
  goJoin [basePath, bucket, trimLeadSlash key]

/-- `Storage.validatePath`: resolve the candidate path and the bucket
directory to absolute form and demand that the bucket directory is a string
prefix of the path (`strings.HasPrefix`).  Returns `some ErrInvalidPath`
exactly when the check fails. -/
def validatePath (cwd basePath bucket p : String) : Option StorageErr :=
  let bucketPath := goJoin [basePath, bucket]
  let absPath := goAbs cwd p
  let absBucket := goAbs cwd bucketPath
  if startsWithStr absPath absBucket then none else some StorageErr.invalidPath

/-- The spec's StorageRoot invariant, from its words: the resolved path
must "after absolute-path normalization, have the bucket directory as a
strict ancestor".  (Spec-side predicate, for comparison with
`validatePath`; it is not part of the source.) -/
def specStrictlyUnder (bucketDir p : String) : Bool :=
  startsWithStr p (bucketDir ++ "/") && p ≠ bucketDir ++ "/"

/-! ## Filesystem state -/

/-- A filesystem entity: a regular file (content bytes and modification
time, in Unix nanoseconds) or a directory (children sorted by name, and a
modification time).  The tree rooted at `/`. -/
inductive Ent where
  | file (content : List Nat) (mtime : Nat)
  | dir (kids : List (String × Ent)) (mtime : Nat)

/-- Child lookup by name. -/
def lookupKid (kids : List (String × Ent)) (n : String) : Option Ent :=
  (kids.find? (fun p => p.1 = n)).map (fun p => p.2)

/-- Sorted insert-or-replace of a child. -/
def insertKid : List (String × Ent) → String → Ent → List (String × Ent)
  | [], n, e => [(n, e)]
  | (k, v) :: rest, n, e =>
    if n = k then (n, e) :: rest
    else if ltStr n k then (n, e) :: (k, v) :: rest
    else (k, v) :: insertKid rest n e

/-- Remove a child by name. -/
def removeKid (kids : List (String × Ent)) (n : String) : List (String × Ent) :=
  kids.filter (fun p => p.1 ≠ n)

/-- Result of `os.Stat`: found, `ENOENT` (which `os.IsNotExist`
recognizes), or any other errno (`ENOTDIR`, `EINVAL`, ...). -/
inductive StatRes where
  | found (e : Ent)
  | notExist
  | otherErr

/-- Navigate a component list.  A missing component is `ENOENT`; descending
through a regular file is `ENOTDIR` (not recognized by `os.IsNotExist`). -/
def findEnt : Ent → List String → StatRes
  | e, [] => StatRes.found e
  | Ent.file _ _, _ :: _ => StatRes.otherErr
  | Ent.dir kids _, s :: rest =>
    match lookupKid kids s with
    | none => StatRes.notExist
    | some c => findEnt c rest

/-- Does a path component contain a NUL byte?  Linux syscalls reject such
paths with `EINVAL`, which surfaces as a generic (non-`IsNotExist`)
error. -/
def segHasNul (s : String) : Bool := s.toList.contains nulChar

/-- `os.Stat` on a component list (a NUL byte anywhere makes the syscall
itself fail). -/
def statSegs (root : Ent) (ps : List String) : StatRes :=
  if ps.any segHasNul then StatRes.otherErr else findEnt root ps

/-- `os.MkdirAll` on a component list: existing directories are fine, any
regular file on the chain (including the final component) is an error, and
missing directories are created with modification time `now`. -/
def mkdirSegs (now : Nat) : Ent → List String → Except Unit Ent
  | Ent.file _ _, [] => Except.error ()
  | Ent.dir kids m, [] => Except.ok (Ent.dir kids m)
  | Ent.file _ _, _ :: _ => Except.error ()
  | Ent.dir kids m, s :: rest =>
    match lookupKid kids s with
    | some c =>
      match mkdirSegs now c rest with
      | Except.error e => Except.error e
      | Except.ok c' => Except.ok (Ent.dir (insertKid kids s c') m)
    | none =>
      match mkdirSegs now (Ent.dir [] now) rest with
      | Except.error e => Except.error e
      | Except.ok c' => Except.ok (Ent.dir (insertKid kids s c') m)

/-- `os.MkdirAll` with the `EINVAL`-on-NUL syscall behavior. -/
def mkdirAllSegs (now : Nat) (root : Ent) (ds : List String) : Except Unit Ent :=
  if ds.any segHasNul then Except.error () else mkdirSegs now root ds

/-- `os.Create` followed by a full `io.Copy` of `content`: fails when the
target is an existing directory (`EISDIR`), the parent chain is missing
(`ENOENT`) or contains a regular file (`ENOTDIR`); otherwise creates or
truncate-replaces the file. -/
def writeSegs (now : Nat) (content : List Nat) : Ent → List String → Except Unit Ent
  | Ent.file _ _, _ => Except.error ()
  | Ent.dir _ _, [] => Except.error ()
  | Ent.dir kids m, [n] =>
    match lookupKid kids n with
    | some (Ent.dir _ _) => Except.error ()
    | _ => Except.ok (Ent.dir (insertKid kids n (Ent.file content now)) m)
  | Ent.dir kids m, s :: r :: rest =>
    match lookupKid kids s with
    | none => Except.error ()
    | some (Ent.file _ _) => Except.error ()
    | some (Ent.dir kc mc) =>
      match writeSegs now content (Ent.dir kc mc) (r :: rest) with
      | Except.error e => Except.error e
      | Except.ok c' => Except.ok (Ent.dir (insertKid kids s c') m)

/-- `os.Create` + `io.Copy` with the `EINVAL`-on-NUL syscall behavior. -/
def writeAtSegs (now : Nat) (root : Ent) (ps : List String) (content : List Nat) :
    Except Unit Ent :=
  if ps.any segHasNul then Except.error () else writeSegs now content root ps

/-- `os.Remove`: unlink a file or an empty directory; a non-empty directory
is `ENOTEMPTY` (a generic error), a missing entry `ENOENT`. -/
def removeSegs : Ent → List String → Except Bool Ent
  | Ent.file _ _, _ => Except.error false
  | Ent.dir _ _, [] => Except.error false
  | Ent.dir kids m, [n] =>
    match lookupKid kids n with
    | none => Except.error true
    | some (Ent.file _ _) => Except.ok (Ent.dir (removeKid kids n) m)
    | some (Ent.dir k2 _) =>
      if k2.isEmpty then Except.ok (Ent.dir (removeKid kids n) m)
      else Except.error false
  | Ent.dir kids m, s :: r :: rest =>
    match lookupKid kids s with
    | none => Except.error true
    | some (Ent.file _ _) => Except.error false
    | some (Ent.dir kc mc) =>
      match removeSegs (Ent.dir kc mc) (r :: rest) with
      | Except.error e => Except.error e
      | Except.ok c' => Except.ok (Ent.dir (insertKid kids s c') m)

/-- `os.Remove` with the `EINVAL`-on-NUL syscall behavior (the error
payload records whether the error is `ENOENT`). -/
def removeAtSegs (root : Ent) (ps : List String) : Except Bool Ent :=
  if ps.any segHasNul then Except.error false else removeSegs root ps

/-- `Storage.cleanEmptyDirs`' loop, on reversed component lists: while the
current directory is not the bucket directory, stop if it cannot be read or
still has entries, otherwise remove it (ignoring errors) and step to the
parent (`filepath.Dir`, i.e. dropping the last component of a
`Clean`-normalized path).  Go compares the path strings; on
`Clean`-normalized absolute paths that is the same as comparing component
lists.  At the filesystem root the model stops after acting once (the Go
loop could only revisit `/`, whose directory is itself). -/
def cleanEmptyAux (bR : List String) : Ent → List String → Ent
  | root, rsegs =>
    if rsegs = bR then root
    else
      match findEnt root rsegs.reverse with
      | StatRes.found (Ent.dir [] _) =>
        let root' :=
          match removeSegs root rsegs.reverse with
          | Except.ok r => r
          | Except.error _ => root
        match rsegs with
        | [] => root'
        | _ :: tl => cleanEmptyAux bR root' tl
      | _ => root

/-! ## Content types and ETags -/

/-- Go `filepath.Ext`: the suffix of the final path element starting at its
last dot, scanning backwards and stopping at a path separator. -/
def extOfAux : List Char → List Char → String
  | [], _ => ""
  | c :: rest, acc =>
    if c = '/' then ""
    else if c = '.' then String.mk ('.' :: acc)
    else extOfAux rest (c :: acc)

/-- Go `filepath.Ext`. -/
def extOf (p : String) : String := extOfAux p.toList.reverse []

/-- `guessContentType`, parameterized by the platform MIME registry
`reg` standing for Go's `mime.TypeByExtension` (an external input of the
program; `""` means "not in the registry"): first the override table for
types with inconsistent platform entries, then the registry, then the
fallback table, defaulting to `application/octet-stream`. -/
def guessContentType (reg : String → String) (key : String) : String :=
  let ext := extOf key
  if ext = "" then "application/octet-stream"
  else
    let le := lowerStr ext
    if le = ".xml" then "application/xml"
    else if le = ".woff" then "font/woff"
    else if le = ".woff2" then "font/woff2"
    else if le = ".webm" then "video/webm"
    else
      let mimeType := reg ext
      if mimeType ≠ "" then mimeType
      else
        if le = ".json" then "application/json"
        else if le = ".js" then "application/javascript"
        else if le = ".css" then "text/css"
        else if le = ".html" ∨ le = ".htm" then "text/html"
        else if le = ".txt" then "text/plain"
        else if le = ".png" then "image/png"
        else if le = ".jpg" ∨ le = ".jpeg" then "image/jpeg"
        else if le = ".gif" then "image/gif"
        else if le = ".svg" then "image/svg+xml"
        else if le = ".webp" then "image/webp"
        else if le = ".pdf" then "application/pdf"
        else if le = ".zip" then "application/zip"
        else if le = ".mp4" then "video/mp4"
        else if le = ".mp3" then "audio/mpeg"
        else "application/octet-stream"

/-- Lower-case hex rendering of a `Nat`, fuel-driven so that it reduces by
kernel computation (the fuel `n + 1` always suffices). -/
def hexNatAux : Nat → Nat → List Char → List Char
  | 0, _, acc => acc
  | _ + 1, 0, acc => acc
  | fuel + 1, n, acc => hexNatAux fuel (n / 16) (Nat.digitChar (n % 16) :: acc)

/-- `fmt.Sprintf "%x"` of a `Nat`. -/
def hexNat (n : Nat) : String :=
  if n = 0 then "0" else String.mk (hexNatAux (n + 1) n [])

/-- `generateETag`: `fmt.Sprintf "\"%x-%x\"" modtimeUnixNano size`. -/
def genETag (mtime size : Nat) : String :=
  "\"" ++ hexNat mtime ++ "-" ++ hexNat size ++ "\""

/-- The `storage.Object` metadata record (`LastModified` in Unix
nanoseconds). -/
structure Obj where
  key : String
  size : Nat
  lastModified : Nat
  contentType : String
  etag : String
deriving DecidableEq, Repr

/-- A request body reader: the bytes it yields, and whether it ends with a
read error instead of `io.EOF` (`io.Copy` then reports the error after
having written the yielded bytes). -/
structure Body where
  bytes : List Nat
  fails : Bool

/-! ## The store operations (`internal/storage`, `storage.go`) -/

/-- `Storage.GetObject`: resolve, validate, stat, reject directories, and
return the metadata and content.  `reg` is the platform MIME registry,
`cwd` the working directory used by `filepath.Abs`. -/
def getObject (reg : String → String) (cwd basePath bucket : String) (root : Ent)
    (key : String) : Except StorageErr (Obj × List Nat) :=
  let path := keyToPath basePath bucket key
  match validatePath cwd basePath bucket path with
  | some e => Except.error e
  | none =>
    match statSegs root (segsOf path) with
    | StatRes.notExist => Except.error StorageErr.notFound
    | StatRes.otherErr => Except.error StorageErr.ioError
    | StatRes.found (Ent.dir _ _) => Except.error StorageErr.notFound
    | StatRes.found (Ent.file c m) =>
      Except.ok
        ({ key := key, size := c.length, lastModified := m,
           contentType := guessContentType reg key, etag := genETag m c.length }, c)

/-- `Storage.HeadObject`: as `GetObject` but metadata only. -/
def headObject (reg : String → String) (cwd basePath bucket : String) (root : Ent)
    (key : String) : Except StorageErr Obj :=
  let path := keyToPath basePath bucket key
  match validatePath cwd basePath bucket path with
  | some e => Except.error e
  | none =>
    match statSegs root (segsOf path) with
    | StatRes.notExist => Except.error StorageErr.notFound
    | StatRes.otherErr => Except.error StorageErr.ioError
    | StatRes.found (Ent.dir _ _) => Except.error StorageErr.notFound
    | StatRes.found (Ent.file c m) =>
      Except.ok
        { key := key, size := c.length, lastModified := m,
          contentType := guessContentType reg key, etag := genETag m c.length }

/-- `Storage.PutObject`: resolve and validate the path, `MkdirAll` the
parent directory (`filepath.Dir`, i.e. the path minus its final
component), `os.Create` the file, `io.Copy` the body (on a copy error the
file is removed again and the error returned), and return the metadata.
`now` is the current time in Unix nanoseconds. -/
def putObject (reg : String → String) (cwd basePath bucket : String) (now : Nat)
    (root : Ent) (key contentType : String) (body : Body) :
    Except StorageErr Obj × Ent :=
  let path := keyToPath basePath bucket key
  match validatePath cwd basePath bucket path with
  | some e => (Except.error e, root)
  | none =>
    let ps := segsOf path
    match mkdirAllSegs now root ps.dropLast with
    | Except.error _ => (Except.error StorageErr.ioError, root)
    | Except.ok r1 =>
      match writeAtSegs now r1 ps body.bytes with
      | Except.error _ => (Except.error StorageErr.ioError, r1)
      | Except.ok r2 =>
        if body.fails then
          (Except.error StorageErr.ioError,
            match removeAtSegs r2 ps with
            | Except.ok r3 => r3
            | Except.error _ => r2)
        else
          let ct := if contentType = "" then guessContentType reg key else contentType
          (Except.ok
            { key := key, size := body.bytes.length, lastModified := now,
              contentType := ct, etag := genETag now body.bytes.length }, r2)

/-- `Storage.DeleteObject`: resolve and validate, treat a missing entry as
success, `os.Remove` the entry (any remove error, e.g. `ENOTEMPTY` for a
non-empty directory, is returned as a generic error), then prune now-empty
parent directories up to the bucket root. -/
def deleteObject (cwd basePath bucket : String) (root : Ent) (key : String) :
    Except StorageErr Unit × Ent :=
  let path := keyToPath basePath bucket key
  match validatePath cwd basePath bucket path with
  | some e => (Except.error e, root)
  | none =>
    let ps := segsOf path
    match statSegs root ps with
    | StatRes.notExist => (Except.ok (), root)
    | StatRes.otherErr => (Except.error StorageErr.ioError, root)
    | StatRes.found _ =>
      match removeAtSegs root ps with
      | Except.error _ => (Except.error StorageErr.ioError, root)
      | Except.ok r1 =>
        let bR := (segsOf (goJoin [basePath, bucket])).reverse
        (Except.ok (), cleanEmptyAux bR r1 ps.dropLast.reverse)

/-! ## Listing (`Storage.ListObjects` via `filepath.Walk`) -/

/-- Build the listing entry for a visited walk entry at bucket-relative
path `rel`: directories get a trailing slash appended to the key (after
the prefix filter has already run), the content type is guessed from the
slash-appended key, and a directory's `info.Size()` is a platform value
modelled as 0 (no claim depends on it). -/
def mkWalkObj (reg : String → String) (rel : String) (e : Ent) : Obj :=
  let key := match e with
    | Ent.dir _ _ => rel ++ "/"
    | Ent.file _ _ => rel
  let size := match e with
    | Ent.dir _ _ => 0
    | Ent.file c _ => c.length
  let m := match e with
    | Ent.dir _ m => m
    | Ent.file _ m => m
  { key := key, size := size, lastModified := m,
    contentType := guessContentType reg key, etag := genETag m size }

/-- `filepath.Rel` of a child: extend the relative path by one component. -/
def childRel (rel n : String) : String :=
  if rel = "" then n else rel ++ "/" ++ n

mutual

/-- Visit one walk entry (the walk callback of `ListObjects`): skip it when
a non-empty prefix does not match the raw relative key, then descend into
children in sorted order (the callback's `return nil` never prunes the
walk). -/
def walkEnt (reg : String → String) (pfx rel : String) (e : Ent) : List Obj :=
  (if pfx ≠ "" ∧ ¬(startsWithStr rel pfx) then [] else [mkWalkObj reg rel e]) ++
    (match e with
     | Ent.dir kids _ => walkKids reg pfx rel kids
     | Ent.file _ _ => [])
termination_by structural e

/-- Walk a directory's children in order. -/
def walkKids (reg : String → String) (pfx rel : String) :
    List (String × Ent) → List Obj
  | [] => []
  | (n, c) :: rest => walkEnt reg pfx (childRel rel n) c ++ walkKids reg pfx rel rest
termination_by structural kids => kids

end

mutual

/-- All walk entries below an entry, with their raw relative paths, in walk
order (spec-side pipeline used to state what the prefix filter retains). -/
def collectEnt (rel : String) (e : Ent) : List (String × Ent) :=
  (rel, e) ::
    (match e with
     | Ent.dir kids _ => collectKids rel kids
     | Ent.file _ _ => [])
termination_by structural e

/-- All walk entries below a child list. -/
def collectKids (rel : String) : List (String × Ent) → List (String × Ent)
  | [] => []
  | (n, c) :: rest => collectEnt (childRel rel n) c ++ collectKids rel rest
termination_by structural kids => kids

end

/-- `Storage.ListObjects`: walk the bucket directory (the walk itself fails
if the bucket directory cannot be stat-ed), skipping the bucket directory
itself. -/
def listObjects (reg : String → String) (basePath bucket : String) (root : Ent)
    (pfx : String) : Except StorageErr (List Obj) :=
  let bucketPath := goJoin [basePath, bucket]
  match statSegs root (segsOf bucketPath) with
  | StatRes.notExist => Except.error StorageErr.ioError
  | StatRes.otherErr => Except.error StorageErr.ioError
  | StatRes.found (Ent.file _ _) => Except.ok []
  | StatRes.found (Ent.dir kids _) => Except.ok (walkKids reg pfx "" kids)

/-! ## SHA-256 and HMAC-SHA256 (`crypto/sha256`, `crypto/hmac`) -/

/-- Reduce to a 32-bit word. -/
def w32 (n : Nat) : Nat := n % 4294967296

/-- 32-bit right rotation. -/
def rotr32 (k w : Nat) : Nat := w32 ((w >>> k) ||| (w <<< (32 - k)))

/-- SHA-256 `Ch`. -/
def shaCh (x y z : Nat) : Nat := (x &&& y) ^^^ ((x ^^^ 4294967295) &&& z)

/-- SHA-256 `Maj`. -/
def shaMaj (x y z : Nat) : Nat := (x &&& y) ^^^ (x &&& z) ^^^ (y &&& z)

/-- SHA-256 `Σ0`. -/
def bigSigma0 (w : Nat) : Nat := rotr32 2 w ^^^ rotr32 13 w ^^^ rotr32 22 w

/-- SHA-256 `Σ1`. -/
def bigSigma1 (w : Nat) : Nat := rotr32 6 w ^^^ rotr32 11 w ^^^ rotr32 25 w

/-- SHA-256 `σ0`. -/
def smallSigma0 (w : Nat) : Nat := rotr32 7 w ^^^ rotr32 18 w ^^^ (w >>> 3)

/-- SHA-256 `σ1`. -/
def smallSigma1 (w : Nat) : Nat := rotr32 17 w ^^^ rotr32 19 w ^^^ (w >>> 10)

/-- The SHA-256 round constants. -/
def K256 : List Nat :=
  [1116352408, 1899447441, 3049323471, 3921009573, 961987163,
   1508970993, 2453635748, 2870763221, 3624381080, 310598401,
   607225278, 1426881987, 1925078388, 2162078206, 2614888103,
   3248222580, 3835390401, 4022224774, 264347078, 604807628,
   770255983, 1249150122, 1555081692, 1996064986, 2554220882,
   2821834349, 2952996808, 3210313671, 3336571891, 3584528711,
   113926993, 338241895, 666307205, 773529912, 1294757372,
   1396182291, 1695183700, 1986661051, 2177026350, 2456956037,
   2730485921, 2820302411, 3259730800, 3345764771, 3516065817,
   3600352804, 4094571909, 275423344, 430227734, 506948616,
   659060556, 883997877, 958139571, 1322822218, 1537002063,
   1747873779, 1955562222, 2024104815, 2227730452, 2361852424,
   2428436474, 2756734187, 3204031479, 3329325298]

/-- The SHA-256 initial state. -/
def IV256 : List Nat :=
  [1779033703, 3144134277, 1013904242, 2773480762,
   1359893119, 2600822924, 528734635, 1541459225]

/-- 8-byte big-endian rendering of a bit length. -/
def be64 (n : Nat) : List Nat :=
  [(n >>> 56) &&& 255, (n >>> 48) &&& 255, (n >>> 40) &&& 255, (n >>> 32) &&& 255,
   (n >>> 24) &&& 255, (n >>> 16) &&& 255, (n >>> 8) &&& 255, n &&& 255]

/-- SHA-256 padding. -/
def padMsg (msg : List Nat) : List Nat :=
  let L := msg.length
  let k := (64 - ((L + 9) % 64)) % 64
  msg ++ 128 :: List.replicate k 0 ++ be64 (8 * L)

/-- Pack bytes into big-endian 32-bit words. -/
def bytesToWords : List Nat → List Nat
  | a :: b :: c :: d :: rest => (((a * 256 + b) * 256 + c) * 256 + d) :: bytesToWords rest
  | _ => []

/-- Split a word list into 16-word blocks. -/
def toBlocks : List Nat → List (List Nat)
  | [] => []
  | w :: ws => (w :: ws).take 16 :: toBlocks ((w :: ws).drop 16)
termination_by ws => ws.length
decreasing_by simp; omega

/-- Extend a 16-word block by `k` further message-schedule words. -/
def schedLoop : List Nat → Nat → List Nat
  | ws, 0 => ws
  | ws, k + 1 =>
    let i := ws.length
    let w := w32 (smallSigma1 (ws.getD (i - 2) 0) + ws.getD (i - 7) 0 +
                  smallSigma0 (ws.getD (i - 15) 0) + ws.getD (i - 16) 0)
    schedLoop (ws ++ [w]) k

/-- One SHA-256 round on the 8-word working state. -/
def shaRound (st : List Nat) (kw : Nat × Nat) : List Nat :=
  match st with
  | [a, b, c, d, e, f, g, h] =>
    let t1 := w32 (h + bigSigma1 e + shaCh e f g + kw.1 + kw.2)
    let t2 := w32 (bigSigma0 a + shaMaj a b c)
    [w32 (t1 + t2), a, b, c, w32 (d + t1), e, f, g]
  | _ => st

/-- Compress one block into the hash state. -/
def compressBlock (st block : List Nat) : List Nat :=
  let ws := schedLoop block 48
  let st' := (List.zip K256 ws).foldl shaRound st
  (List.zip st st').map (fun p => w32 (p.1 + p.2))

/-- Big-endian bytes of a 32-bit word. -/
def wordBytes (w : Nat) : List Nat :=
  [(w >>> 24) &&& 255, (w >>> 16) &&& 255, (w >>> 8) &&& 255, w &&& 255]

/-- SHA-256 of a byte list. -/
def sha256Bytes (msg : List Nat) : List Nat :=
  ((toBlocks (bytesToWords (padMsg msg))).foldl compressBlock IV256).flatMap wordBytes

/-- UTF-8 bytes of a character (Go `[]byte(string)`). -/
def utf8Bytes (c : Char) : List Nat :=
  let n := c.toNat
  if n < 128 then [n]
  else if n < 2048 then [192 ||| (n >>> 6), 128 ||| (n &&& 63)]
  else if n < 65536 then
    [224 ||| (n >>> 12), 128 ||| ((n >>> 6) &&& 63), 128 ||| (n &&& 63)]
  else
    [240 ||| (n >>> 18), 128 ||| ((n >>> 12) &&& 63), 128 ||| ((n >>> 6) &&& 63),
     128 ||| (n &&& 63)]

/-- The UTF-8 bytes of a string. -/
def strBytes (s : String) : List Nat := s.toList.flatMap utf8Bytes

/-- Lower-case hex of a byte list (`encoding/hex`). -/
def hexOfBytes (bs : List Nat) : String :=
  String.mk (bs.flatMap (fun b => [Nat.digitChar (b / 16), Nat.digitChar (b % 16)]))

/-- `hashSHA256`: SHA-256 of a string, hex-encoded. -/
def hashSHA256 (data : String) : String := hexOfBytes (sha256Bytes (strBytes data))

/-- `hmacSHA256` (key bytes, string data), block size 64. -/
def hmacSHA256 (key : List Nat) (data : String) : List Nat :=
  let msg := strBytes data
  let k0 := if 64 < key.length then sha256Bytes key else key
  let k1 := k0 ++ List.replicate (64 - k0.length) 0
  sha256Bytes ((k1.map (fun b => b ^^^ 92)) ++
    sha256Bytes ((k1.map (fun b => b ^^^ 54)) ++ msg))

/-! ## SigV4 building blocks (`internal/auth/signature.go`) -/

/-- The credentials triple. -/
structure Credentials where
  accessKey : String
  secretKey : String
  region : String
deriving DecidableEq, Repr

/-- The view of an `http.Request` the validator consumes: method, host,
URL path (decoded) and raw path (as sent), the parsed query
(`r.URL.Query()`, an association list with distinct keys, Go's
`url.Values`), the header list (keys stored in canonical MIME form, looked
up case-insensitively, as `http.Header.Get` does), and the body bytes. -/
structure Request where
  method : String
  host : String
  path : String
  rawPath : String
  query : List (String × List String)
  headers : List (String × String)
  body : List Nat

/-- `r.Header.Get name`: case-insensitive lookup, first value, `""` when
absent. -/
def headerGet (r : Request) (name : String) : String :=
  match r.headers.find? (fun p => lowerStr p.1 = lowerStr name) with
  | some p => p.2
  | none => ""

/-- The parsed `Authorization` header. -/
structure AuthHeader where
  algorithm : String
  credential : String
  signedHeaders : List String
  signature : String
  accessKey : String
  date : String
  region : String
  service : String
deriving DecidableEq, Repr

/-- Consume a literal. -/
def stripLit : List Char → List Char → Option (List Char)
  | [], cs => some cs
  | _ :: _, [] => none
  | l :: ls, c :: cs => if c = l then stripLit ls cs else none

/-- Go regexp `\s`, i.e. `[\t\n\f\r ]`. -/
def reSpace (c : Char) : Bool :=
  c = ' ' ∨ c = '\t' ∨ c = '\n' ∨ c = Char.ofNat 12 ∨ c = '\r'

/-- Go regexp `[a-f0-9]`. -/
def hexLowerClass (c : Char) : Bool :=
  ('a' ≤ c ∧ c ≤ 'f') ∨ ('0' ≤ c ∧ c ≤ '9')

/-- Match the authorization regexp
`AWS4-HMAC-SHA256\s+Credential=([^,]+),\s*SignedHeaders=([^,]+),\s*Signature=([a-f0-9]+)`
at the start of `cs0`, returning the three capture groups.  The greedy
one-or-more classes cannot backtrack past their maximal run here (`[^,]+`
must be followed by the very `,` it cannot contain, and `[a-f0-9]+` has no
following context), so maximal-munch scanning is the regexp's exact
behavior. -/
def matchAuthAt (cs0 : List Char) : Option (String × String × String) := do
  let cs1 ← stripLit "AWS4-HMAC-SHA256".toList cs0
  guard (cs1.takeWhile reSpace ≠ [])
  let cs3 ← stripLit "Credential=".toList (cs1.dropWhile reSpace)
  let cred := cs3.takeWhile (fun c => c ≠ ',')
  guard (cred ≠ [])
  let cs4 ← stripLit ",".toList (cs3.dropWhile (fun c => c ≠ ','))
  let cs5 ← stripLit "SignedHeaders=".toList (cs4.dropWhile reSpace)
  let sh := cs5.takeWhile (fun c => c ≠ ',')
  guard (sh ≠ [])
  let cs6 ← stripLit ",".toList (cs5.dropWhile (fun c => c ≠ ','))
  let cs7 ← stripLit "Signature=".toList (cs6.dropWhile reSpace)
  let sig := cs7.takeWhile hexLowerClass
  guard (sig ≠ [])
  pure (String.mk cred, String.mk sh, String.mk sig)

/-- Leftmost match of the authorization regexp
(`regexp.FindStringSubmatch`). -/
def findAuthMatch : List Char → Option (String × String × String)
  | [] => matchAuthAt []
  | c :: rest =>
    match matchAuthAt (c :: rest) with
    | some r => some r
    | none => findAuthMatch rest

/-- `parseAuthHeader`: run the regexp, then split the credential scope on
`/` demanding exactly 5 parts, and the signed-header list on `;`. -/
def parseAuthHeader (h : String) : Option AuthHeader :=
  match findAuthMatch h.toList with
  | none => none
  | some (cred, sh, sig) =>
    let credParts := splitCharStr '/' cred
    if credParts.length = 5 then
      some { algorithm := "AWS4-HMAC-SHA256", credential := cred,
             signedHeaders := splitCharStr ';' sh, signature := sig,
             accessKey := credParts.getD 0 "", date := credParts.getD 1 "",
             region := credParts.getD 2 "", service := credParts.getD 3 "" }
    else none

/-! ## `X-Amz-Date` parsing (`time.Parse "20060102T150405Z"`) -/

/-- Leap year per the proleptic Gregorian calendar. -/
def isLeapYear (y : Nat) : Bool := y % 4 = 0 ∧ (y % 100 ≠ 0 ∨ y % 400 = 0)

/-- Days in a month. -/
def daysInMonth (y m : Nat) : Nat :=
  if m = 2 then (if isLeapYear y then 29 else 28)
  else if m = 4 ∨ m = 6 ∨ m = 9 ∨ m = 11 then 30
  else 31

/-- Days since 1970-01-01 of a civil date (exact Gregorian calendar
arithmetic, the function Go's `time` package computes). -/
def epochDays (y m d : Nat) : Int :=
  let y' : Int := if m ≤ 2 then (y : Int) - 1 else (y : Int)
  let era : Int := Int.fdiv y' 400
  let yoe : Nat := (y' - era * 400).toNat
  let mp : Nat := (m + 9) % 12
  let doy : Nat := (153 * mp + 2) / 5 + (d - 1)
  let doe : Nat := yoe * 365 + yoe / 4 + doy - yoe / 100
  era * 146097 + (doe : Int) - 719468

/-- Decimal value of a digit character. -/
def digitVal (c : Char) : Nat := c.toNat - 48

/-- `time.Parse "20060102T150405Z"`: fixed-width digits, literal `T` and
`Z`, the whole string consumed, and the field ranges Go validates (month,
day-of-month against the month's length, hour, minute, second).  Returns
Unix seconds. -/
def parseAmzDate (s : String) : Option Int :=
  match s.toList with
  | [y1, y2, y3, y4, a1, a2, b1, b2, tc, h1, h2, n1, n2, c1, c2, zc] =>
    if tc = 'T' ∧ zc = 'Z' ∧
        [y1, y2, y3, y4, a1, a2, b1, b2, h1, h2, n1, n2, c1, c2].all Char.isDigit then
      let year := ((digitVal y1 * 10 + digitVal y2) * 10 + digitVal y3) * 10 + digitVal y4
      let month := digitVal a1 * 10 + digitVal a2
      let day := digitVal b1 * 10 + digitVal b2
      let hour := digitVal h1 * 10 + digitVal h2
      let minute := digitVal n1 * 10 + digitVal n2
      let second := digitVal c1 * 10 + digitVal c2
      if 1 ≤ month ∧ month ≤ 12 ∧ 1 ≤ day ∧ day ≤ daysInMonth year month ∧
          hour ≤ 23 ∧ minute ≤ 59 ∧ second ≤ 59 then
        some (epochDays year month day * 86400 +
          ((hour * 3600 + minute * 60 + second : Nat) : Int))
      else none
    else none
  | _ => none

/-! ## Canonical request construction -/

/-- Go `unicode.IsSpace` (the set `strings.TrimSpace` trims). -/
def goIsSpace (c : Char) : Bool :=
  c = ' ' ∨ c = '\t' ∨ c = '\n' ∨ c = Char.ofNat 11 ∨ c = Char.ofNat 12 ∨ c = '\r' ∨
  c = Char.ofNat 133 ∨ c = Char.ofNat 160 ∨ c = Char.ofNat 5760 ∨
  (Char.ofNat 8192 ≤ c ∧ c ≤ Char.ofNat 8202) ∨
  c = Char.ofNat 8232 ∨ c = Char.ofNat 8233 ∨ c = Char.ofNat 8239 ∨
  c = Char.ofNat 8287 ∨ c = Char.ofNat 12288

/-- `strings.TrimSpace`. -/
def trimSpace (s : String) : String :=
  String.mk ((s.toList.dropWhile goIsSpace).reverse.dropWhile goIsSpace).reverse

/-- Unreserved characters per RFC 3986 (`isUnreserved` in the source). -/
def isUnreserved (c : Char) : Bool :=
  ('A' ≤ c ∧ c ≤ 'Z') ∨ ('a' ≤ c ∧ c ≤ 'z') ∨ ('0' ≤ c ∧ c ≤ '9') ∨
  c = '-' ∨ c = '_' ∨ c = '.' ∨ c = '~'

/-- Byte classes Go's `url` escaping keeps verbatim: unreserved bytes. -/
def isUnresByte (b : Nat) : Bool :=
  (48 ≤ b ∧ b ≤ 57) ∨ (65 ≤ b ∧ b ≤ 90) ∨ (97 ≤ b ∧ b ≤ 122) ∨
  b = 45 ∨ b = 95 ∨ b = 46 ∨ b = 126

/-- Upper-case hex digit (Go `%XX` escapes). -/
def hexUpperDigit (n : Nat) : Char :=
  if n < 10 then Nat.digitChar n else Char.ofNat (55 + n)

/-- Go `url.QueryEscape`: byte-wise, space to `+`, unreserved bytes kept,
everything else `%XX`. -/
def queryEscape (s : String) : String :=
  String.mk ((strBytes s).flatMap (fun b =>
    if b = 32 then ['+']
    else if isUnresByte b then [Char.ofNat b]
    else ['%', hexUpperDigit (b / 16), hexUpperDigit (b % 16)]))

/-- Bytes Go `url.PathEscape` keeps verbatim: unreserved bytes and the
sub-delimiters `$ & + : = @` allowed in a path segment. -/
def pathSegKeepByte (b : Nat) : Bool :=
  isUnresByte b ∨ b = 36 ∨ b = 38 ∨ b = 43 ∨ b = 58 ∨ b = 61 ∨ b = 64

/-- `url.PathEscape` of a single rune (the source escapes rune by rune). -/
def pathEscapeRune (c : Char) : List Char :=
  (utf8Bytes c).flatMap (fun b =>
    if pathSegKeepByte b then [Char.ofNat b]
    else ['%', hexUpperDigit (b / 16), hexUpperDigit (b % 16)])

/-- `uriEncodePath`: keep unreserved runes and `/`, `url.PathEscape` the
rest. -/
def uriEncodePath (p : String) : String :=
  String.mk (p.toList.flatMap (fun c =>
    if isUnreserved c ∨ c = '/' then [c] else pathEscapeRune c))

/-- Insert into a sorted string list (ascending byte order, the order of
`sort.Strings`). -/
def insertSortedStr (x : String) : List String → List String
  | [] => [x]
  | y :: ys => if ltStr y x then y :: insertSortedStr x ys else x :: y :: ys

/-- `sort.Strings`. -/
def sortStrings (l : List String) : List String := l.foldr insertSortedStr []

/-- The values of a query key (`url.Values` map access). -/
def getVals (q : List (String × List String)) (k : String) : List String :=
  match q.find? (fun p => p.1 = k) with
  | some p => p.2
  | none => []

/-- `createCanonicalQueryString`: keys sorted, then values sorted, each
pair `QueryEscape(k)=QueryEscape(v)`, joined with `&`. -/
def createCanonicalQueryString (q : List (String × List String)) : String :=
  if q.isEmpty then ""
  else
    let keys := sortStrings (q.map (fun p => p.1))
    let pairs := keys.foldl (fun acc k =>
      let values := sortStrings (getVals q k)
      acc ++ values.map (fun v => queryEscape k ++ "=" ++ queryEscape v)) []
    String.intercalate "&" pairs

/-- `createCanonicalHeaders`: for each declared signed header, in declared
order, `name:value\n` with the name as declared, the value from `r.Host`
for `host` and from the header map otherwise, trimmed of surrounding
whitespace. -/
def createCanonicalHeaders (r : Request) (signedHeaders : List String) : String :=
  let headers := signedHeaders.foldl (fun acc h =>
    let value := if h = "host" then r.host else headerGet r h
    acc ++ [h ++ ":" ++ trimSpace value ++ "\n"]) []
  String.join headers

/-- `createCanonicalRequest`: method, canonical URI (the raw path verbatim
when present, else the encoded path, else `/`), canonical query string,
canonical headers, the declared signed-header list joined with `;`, and
the `X-Amz-Content-Sha256` header verbatim (or `UNSIGNED-PAYLOAD`). -/
def createCanonicalRequest (r : Request) (signedHeaders : List String) : String :=
  let canonicalURI :=
    if r.rawPath ≠ "" then r.rawPath
    else if r.path = "" then "/"
    else uriEncodePath r.path
  let canonicalQueryString := createCanonicalQueryString r.query
  let canonicalHeaders := createCanonicalHeaders r signedHeaders
  let signedHeadersStr := String.intercalate ";" signedHeaders
  let hashedPayload :=
    let hp := headerGet r "X-Amz-Content-Sha256"
    if hp = "" then "UNSIGNED-PAYLOAD" else hp
  r.method ++ "\n" ++ canonicalURI ++ "\n" ++ canonicalQueryString ++ "\n" ++
    canonicalHeaders ++ "\n" ++ signedHeadersStr ++ "\n" ++ hashedPayload

/-- `deriveSigningKey`: the four-stage HMAC chain seeded with
`"AWS4" + secret`. -/
def deriveSigningKey (creds : Credentials) (dateStamp : String) : List Nat :=
  let kDate := hmacSHA256 (strBytes ("AWS4" ++ creds.secretKey)) dateStamp
  let kRegion := hmacSHA256 kDate creds.region
  let kService := hmacSHA256 kRegion "s3"
  hmacSHA256 kService "aws4_request"

/-- `calculateSignature`: canonical request, string-to-sign, signing key,
final HMAC, hex-encoded.  (`amzDate[:8]` slices bytes; by the time this
runs the date has parsed, so the string is ASCII and taking 8 characters
is the same slice.) -/
def calculateSignature (creds : Credentials) (r : Request) (auth : AuthHeader)
    (amzDate : String) : String :=
  let canonicalRequest := createCanonicalRequest r auth.signedHeaders
  let dateStamp := String.mk (amzDate.toList.take 8)
  let scope := dateStamp ++ "/" ++ creds.region ++ "/s3/aws4_request"
  let stringToSign := "AWS4-HMAC-SHA256\n" ++ amzDate ++ "\n" ++ scope ++ "\n" ++
    hashSHA256 canonicalRequest
  let signingKey := deriveSigningKey creds dateStamp
  hexOfBytes (hmacSHA256 signingKey stringToSign)

/-- The validator's closed error enum (the distinct `fmt.Errorf` returns of
`ValidateRequest`). -/
inductive AuthError where
  | missingAuthHeader
  | malformedHeader
  | invalidAccessKey
  | missingDate
  | invalidDateFormat
  | expiredOrFutureTimestamp
  | signatureMismatch
deriving DecidableEq, Repr

/-- `ValidateRequest`, at current time `now` (Unix seconds; Go measures the
window in nanoseconds, which scales identically): header presence, regexp
parse, identity check, date presence, date parse, 15-minute window on
`|now - t|`, then the signature comparison (`hmac.Equal` on the two hex
strings is string equality). -/
def validateRequest (creds : Credentials) (now : Int) (r : Request) :
    Except AuthError Unit :=
  let authHeaderValue := headerGet r "Authorization"
  if authHeaderValue = "" then Except.error AuthError.missingAuthHeader
  else
    match parseAuthHeader authHeaderValue with
    | none => Except.error AuthError.malformedHeader
    | some auth =>
      if auth.accessKey ≠ creds.accessKey then Except.error AuthError.invalidAccessKey
      else
        let amzDate := headerGet r "X-Amz-Date"
        if amzDate = "" then Except.error AuthError.missingDate
        else
          match parseAmzDate amzDate with
          | none => Except.error AuthError.invalidDateFormat
          | some t =>
            let d := now - t
            let timeDiff := if d < 0 then -d else d
            if timeDiff > 15 * 60 then Except.error AuthError.expiredOrFutureTimestamp
            else
              let expectedSig := calculateSignature creds r auth amzDate
              if auth.signature = expectedSig then Except.ok ()
              else Except.error AuthError.signatureMismatch

/-! ## Claim-side definitions and concrete fixtures -/

/-- The canonical-headers section as the claim amended to the source
renders it: the declared headers in declared order, each as the declared
name verbatim, a colon, the value (the request host for `host`, the header
value otherwise) trimmed of surrounding whitespace only, and a newline. -/
def canonHeadersVerbatim (r : Request) : List String → String
  | [] => ""
  | h :: rest =>
    (h ++ ":" ++ trimSpace (if h = "host" then r.host else headerGet r h) ++ "\n") ++
      canonHeadersVerbatim r rest

/-- The canonical-headers section as the claim literally words it: each
declared header rendered with the lower-cased header name. -/
def canonHeadersLowerName (r : Request) : List String → String
  | [] => ""
  | h :: rest =>
    (lowerStr h ++ ":" ++
        trimSpace (if lowerStr h = "host" then r.host else headerGet r h) ++ "\n") ++
      canonHeadersLowerName r rest

/-- Is there a regular file at this component path? -/
def isFileAt (root : Ent) (ps : List String) : Bool :=
  match statSegs root ps with
  | StatRes.found (Ent.file _ _) => true
  | _ => false

/-- A platform MIME registry with no entries (forces the fallback table). -/
def emptyReg : String → String := fun _ => ""

/-- A filesystem holding just the empty bucket directory `/data/b`. -/
def bucketOnlyRoot : Ent :=
  Ent.dir [("data", Ent.dir [("b", Ent.dir [] 0)] 0)] 0

/-- A filesystem where the bucket holds `folder/f.txt`. -/
def folderWithFileRoot : Ent :=
  Ent.dir [("data",
    Ent.dir [("b",
      Ent.dir [("folder", Ent.dir [("f.txt", Ent.file [1] 3)] 2)] 0)] 0)] 0

/-- A filesystem where the bucket holds the nested folders `a/b/c`. -/
def nestedDirsRoot : Ent :=
  Ent.dir [("data",
    Ent.dir [("b",
      Ent.dir [("a", Ent.dir [("b", Ent.dir [("c", Ent.dir [] 0)] 0)] 0)] 0)] 0)] 0

/-- A filesystem with an empty bucket `/data/b` and, outside it, a sibling
file `/data/bb` whose name extends the bucket directory's name. -/
def siblingTrapRoot : Ent :=
  Ent.dir [("data", Ent.dir [("b", Ent.dir [] 0), ("bb", Ent.file [7] 5)] 0)] 0

/-- A request carrying one header, `X-Test: v`. -/
def req4 : Request :=
  { method := "GET", host := "h", path := "/", rawPath := "", query := [],
    headers := [("X-Test", "v")], body := [] }

/-- Concrete credentials for the timestamp-window witness. -/
def creds7 : Credentials := { accessKey := "AK", secretKey := "SK", region := "us-east-1" }

/-- A concrete request with a well-formed `Authorization` header for access
key `AK` and `X-Amz-Date` 2026-01-01T00:00:00Z (Unix second
1767225600). -/
def req7 : Request :=
  { method := "GET", host := "h", path := "/", rawPath := "", query := [],
    headers :=
      [("Authorization",
        "AWS4-HMAC-SHA256 Credential=AK/20260101/us-east-1/s3/aws4_request, SignedHeaders=host, Signature=ab12"),
       ("X-Amz-Date", "20260101T000000Z")],
    body := [] }

/-- The parse of `req7`'s `Authorization` header. -/
def auth7 : AuthHeader :=
  { algorithm := "AWS4-HMAC-SHA256",
    credential := "AK/20260101/us-east-1/s3/aws4_request",
    signedHeaders := ["host"], signature := "ab12",
    accessKey := "AK", date := "20260101", region := "us-east-1", service := "s3" }

/-! ## Theorems -/

/-- C1 (code bug): `validatePath` checks the bucket directory only as a
*string* prefix of the resolved path, so a key such as `../bb` with bucket
`b` resolves to the sibling path `/data/bb`, which is not strictly under
the bucket directory `/data/b`, yet passes validation — and `GetObject`
then reads the file outside the bucket instead of returning
`ErrInvalidPath`. -/
theorem c1_validate_misses_sibling_escape :
    keyToPath "/data" "b" "../bb" = "/data/bb" ∧
    specStrictlyUnder (goJoin ["/data", "b"]) "/data/bb" = false ∧
    validatePath "/" "/data" "b" (keyToPath "/data" "b" "../bb") = none ∧
    getObject emptyReg "/" "/data" "b" siblingTrapRoot "../bb" =
      Except.ok ({ key := "../bb", size := 1, lastModified := 5,
                   contentType := "application/octet-stream",
                   etag := "\"5-1\"" }, [7]) :=
  ⟨rfl, rfl, rfl, rfl⟩

/-- C2 (counterexample): a key with a leading `/` is stripped and the put
succeeds; a key with an interior `..` segment that normalizes back inside
the bucket succeeds; and a key with a NUL byte fails with a generic I/O
error — none of the three returns `ErrInvalidPath` as the claim
demands. -/
theorem c2_counterexample_invalid_keys_not_rejected :
    (putObject emptyReg "/" "/data" "b" 7 bucketOnlyRoot "/test/file.txt"
        "text/plain" ⟨[1], false⟩).1 =
      Except.ok { key := "/test/file.txt", size := 1, lastModified := 7,
                  contentType := "text/plain", etag := "\"7-1\"" } ∧
    (putObject emptyReg "/" "/data" "b" 7 bucketOnlyRoot "a/../f.txt"
        "" ⟨[1], false⟩).1 =
      Except.ok { key := "a/../f.txt", size := 1, lastModified := 7,
                  contentType := "text/plain", etag := "\"7-1\"" } ∧
    (putObject emptyReg "/" "/data" "b" 7 bucketOnlyRoot "x\x00y" "" ⟨[], false⟩).1 =
      Except.error StorageErr.ioError :=
  ⟨rfl, rfl, rfl⟩

/-- C3 (code bug): `PutObject` has no folder-marker branch: a key ending
in `/` loses its trailing slash in `keyToPath`, a regular file (not a
directory) is created at the resolved path, the returned content type is
`application/octet-stream` rather than `application/x-directory`, and a
non-empty body is accepted rather than required to be empty. -/
theorem c3_trailing_slash_put_creates_regular_file :
    (putObject emptyReg "/" "/data" "b" 9 bucketOnlyRoot "a/b/c/nested/"
        "" ⟨[], false⟩).1 =
      Except.ok { key := "a/b/c/nested/", size := 0, lastModified := 9,
                  contentType := "application/octet-stream", etag := "\"9-0\"" } ∧
    statSegs (putObject emptyReg "/" "/data" "b" 9 bucketOnlyRoot "a/b/c/nested/"
        "" ⟨[], false⟩).2 (segsOf "/data/b/a/b/c/nested") =
      StatRes.found (Ent.file [] 9) ∧
    (putObject emptyReg "/" "/data" "b" 9 bucketOnlyRoot "e/" "" ⟨[1, 2], false⟩).1 =
      Except.ok { key := "e/", size := 2, lastModified := 9,
                  contentType := "application/octet-stream", etag := "\"9-2\"" } :=
  ⟨rfl, rfl, rfl⟩

/-- C6 (code bug): deleting a folder-marker key whose directory still has
entries returns a generic error (`os.Remove` fails with `ENOTEMPTY` and the
error is wrapped and surfaced), not the silent success the claim (and the
repository's own test `TestDeleteFolderMarker_NotEmpty`) describe. -/
theorem c6_delete_nonempty_folder_errors :
    deleteObject "/" "/data" "b" folderWithFileRoot "folder/" =
      (Except.error StorageErr.ioError, folderWithFileRoot) :=
  rfl

/-- C5 (counterexample): with nested folders `a/b/c` in the bucket,
`List("a/")` returns only `a/b/` and `a/b/c/`: the directory `a/` itself is
missing because the prefix filter runs on the raw relative path `a`
before the trailing slash is appended. -/
theorem c5_counterexample_dir_itself_missing :
    (listObjects emptyReg "/data" "b" nestedDirsRoot "a/").map (List.map Obj.key) =
      Except.ok ["a/b/", "a/b/c/"] :=
  rfl

/-- `String.join` distributes over list append. -/
theorem strJoin_append (l1 l2 : List String) :
    String.join (l1 ++ l2) = String.join l1 ++ String.join l2 := by
  rw [String.join_eq, String.join_eq, String.join_eq]
  show String.mk _ = String.mk _
  exact congrArg String.mk (by simp)

/-- The canonical-headers loop (append to a list, then join) equals the
direct recursion, for any accumulator. -/
theorem canonHeaders_foldl_aux (r : Request) (hs : List String) (acc : List String) :
    String.join (hs.foldl (fun acc h =>
      let value := if h = "host" then r.host else headerGet r h
      acc ++ [h ++ ":" ++ trimSpace value ++ "\n"]) acc) =
    String.join acc ++ canonHeadersVerbatim r hs := by
  induction hs generalizing acc with
  | nil => simp [canonHeadersVerbatim, String.append_empty]
  | cons h rest ih =>
    simp only [List.foldl_cons]
    rw [ih, strJoin_append]
    show String.join acc ++ String.join [_] ++ _ = _
    rw [String.append_assoc]
    rfl

/-- C4 (amended): the canonical-headers section is exactly the declared
headers in declared order, each rendered as the *declared* header name
(not lower-cased), a colon, the value trimmed of surrounding whitespace
only (internal whitespace preserved), and a newline. -/
theorem c4_canonical_headers_verbatim_names (r : Request) (hs : List String) :
    createCanonicalHeaders r hs = canonHeadersVerbatim r hs := by
  have h := canonHeaders_foldl_aux r hs []
  simpa [createCanonicalHeaders, String.join] using h

/-- C4 (counterexample): for the declared signed-header list `["X-Test"]`
the source renders the name verbatim, not lower-cased as the claim states,
so the two renderings differ. -/
theorem c4_counterexample_name_not_lowercased :
    createCanonicalHeaders req4 ["X-Test"] = "X-Test:v\n" ∧
    canonHeadersLowerName req4 ["X-Test"] = "x-test:v\n" ∧
    createCanonicalHeaders req4 ["X-Test"] ≠ canonHeadersLowerName req4 ["X-Test"] :=
  ⟨rfl, rfl, by decide⟩

/-- C2 (amended): whenever the resolved path of a key fails `validatePath`'s
bucket-prefix check (as any `..` chain that climbs out of the bucket to a
non-sibling-named path does), all four key operations return
`ErrInvalidPath` and leave the filesystem untouched. -/
theorem c2_amended_failed_validation_rejects_unchanged
    (reg : String → String) (cwd basePath bucket : String) (now : Nat) (root : Ent)
    (key contentType : String) (body : Body)
    (h : validatePath cwd basePath bucket (keyToPath basePath bucket key) =
      some StorageErr.invalidPath) :
    getObject reg cwd basePath bucket root key = Except.error StorageErr.invalidPath ∧
    headObject reg cwd basePath bucket root key = Except.error StorageErr.invalidPath ∧
    putObject reg cwd basePath bucket now root key contentType body =
      (Except.error StorageErr.invalidPath, root) ∧
    deleteObject cwd basePath bucket root key =
      (Except.error StorageErr.invalidPath, root) := by
  refine ⟨?_, ?_, ?_, ?_⟩ <;>
    simp only [getObject, headObject, putObject, deleteObject, h]

/-- Witness for the amended C2, at the concrete escaping key
`../../etc/passwd`. -/
theorem c2_amended_witness :
    validatePath "/" "/data" "b" (keyToPath "/data" "b" "../../etc/passwd") =
      some StorageErr.invalidPath ∧
    putObject emptyReg "/" "/data" "b" 7 bucketOnlyRoot "../../etc/passwd" ""
        ⟨[1], false⟩ = (Except.error StorageErr.invalidPath, bucketOnlyRoot) ∧
    deleteObject "/" "/data" "b" bucketOnlyRoot "../../etc/passwd" =
      (Except.error StorageErr.invalidPath, bucketOnlyRoot) :=
  ⟨rfl,
    (c2_amended_failed_validation_rejects_unchanged emptyReg "/" "/data" "b" 7
      bucketOnlyRoot "../../etc/passwd" "" ⟨[1], false⟩ rfl).2.2.1,
    (c2_amended_failed_validation_rejects_unchanged emptyReg "/" "/data" "b" 7
      bucketOnlyRoot "../../etc/passwd" "" ⟨[1], false⟩ rfl).2.2.2⟩

/-- Looking up a just-inserted child finds it. -/
theorem lookup_insertKid_self (kids : List (String × Ent)) (n : String) (e : Ent) :
    lookupKid (insertKid kids n e) n = some e := by
  induction kids with
  | nil => simp [insertKid, lookupKid]
  | cons kv rest ih =>
    obtain ⟨k, v⟩ := kv
    by_cases h1 : n = k
    · simp [insertKid, h1, lookupKid]
    · by_cases h2 : ltStr n k = true
      · simp [insertKid, h1, h2, lookupKid]
      · simp only [insertKid, h1, h2, if_false, ite_false, if_neg]
        simp only [lookupKid, List.find?] at ih ⊢
        simp [Ne.symm h1, ih]

/-- Looking up a just-removed child misses. -/
theorem lookup_removeKid_self (kids : List (String × Ent)) (n : String) :
    lookupKid (removeKid kids n) n = none := by
  have h : List.find? (fun p => decide (p.1 = n))
      (kids.filter (fun p => decide (p.1 ≠ n))) = none := by
    apply List.find?_eq_none.mpr
    intro x hx
    have hne := List.of_mem_filter hx
    simp only [decide_eq_true_eq] at hne ⊢
    exact hne
  simp [removeKid, lookupKid, h]

/-- `MkdirAll` below a fresh empty directory always succeeds. -/
theorem mkdirSegs_fresh_ok (now : Nat) (ds : List String) :
    ∀ m, ∃ e', mkdirSegs now (Ent.dir [] m) ds = Except.ok e' := by
  induction ds with
  | nil => intro m; exact ⟨Ent.dir [] m, rfl⟩
  | cons s rest ih =>
    intro m
    obtain ⟨e', he⟩ := ih now
    exact ⟨Ent.dir (insertKid [] s e') m, by simp [mkdirSegs, lookupKid, he]⟩

/-- A successful `MkdirAll` on a directory returns a directory with the
same modification time. -/
theorem mkdirSegs_ok_dir (now : Nat) (kids : List (String × Ent)) (m : Nat)
    (ds : List String) (r : Ent) (h : mkdirSegs now (Ent.dir kids m) ds = Except.ok r) :
    ∃ kids', r = Ent.dir kids' m := by
  cases ds with
  | nil => exact ⟨kids, by simpa [mkdirSegs] using h.symm⟩
  | cons s rest =>
    simp only [mkdirSegs] at h
    cases hl : lookupKid kids s with
    | some c =>
      simp only [hl] at h
      cases hr : mkdirSegs now c rest with
      | error e => simp only [hr] at h; exact absurd h (by simp)
      | ok c' => simp only [hr] at h; exact ⟨insertKid kids s c', by simpa using h.symm⟩
    | none =>
      simp only [hl] at h
      cases hr : mkdirSegs now (Ent.dir [] now) rest with
      | error e => simp only [hr] at h; exact absurd h (by simp)
      | ok c' => simp only [hr] at h; exact ⟨insertKid kids s c', by simpa using h.symm⟩

/-- If `MkdirAll` of a directory chain fails, no regular file can sit at
any path extending the chain by one component (the failure is caused by a
regular file somewhere along the chain). -/
theorem mkdirSegs_error_no_file (now : Nat) (ds : List String) :
    ∀ (kids : List (String × Ent)) (m : Nat),
    mkdirSegs now (Ent.dir kids m) ds = Except.error () →
    ∀ (n : String) (c : List Nat) (mt : Nat),
      findEnt (Ent.dir kids m) (ds ++ [n]) ≠ StatRes.found (Ent.file c mt) := by
  induction ds with
  | nil => intro kids m h; exact absurd h (by simp [mkdirSegs])
  | cons s rest ih =>
    intro kids m h n c mt
    simp only [mkdirSegs] at h
    cases hl : lookupKid kids s with
    | none =>
      simp only [hl] at h
      obtain ⟨e', he⟩ := mkdirSegs_fresh_ok now rest now
      simp only [he] at h
      exact absurd h (by simp)
    | some ch =>
      simp only [hl] at h
      simp only [List.cons_append, findEnt, hl]
      cases ch with
      | file fc fm =>
        intro hfind
        cases rest with
        | nil => simp [findEnt] at hfind
        | cons a b => simp [findEnt] at hfind
      | dir kc mc =>
        cases hr : mkdirSegs now (Ent.dir kc mc) rest with
        | ok c' => simp only [hr] at h; exact absurd h (by simp)
        | error e => exact ih kc mc hr n c mt

/-- If the create-and-copy fails on a directory, no regular file sits at
the target path. -/
theorem writeSegs_error_no_file (now : Nat) (content : List Nat) (ps : List String) :
    ∀ (kids : List (String × Ent)) (m : Nat),
    writeSegs now content (Ent.dir kids m) ps = Except.error () →
    ∀ (c : List Nat) (mt : Nat),
      findEnt (Ent.dir kids m) ps ≠ StatRes.found (Ent.file c mt) := by
  induction ps with
  | nil => intro kids m h c mt; simp [findEnt]
  | cons s rest ih =>
    intro kids m h c mt
    cases rest with
    | nil =>
      simp only [writeSegs] at h
      cases hl : lookupKid kids s with
      | none => rw [hl] at h; exact absurd h (by simp)
      | some ch =>
        simp only [hl] at h
        cases ch with
        | file fc fm => exact absurd h (by simp)
        | dir kc mc => simp [findEnt, hl]
    | cons r rest' =>
      simp only [writeSegs] at h
      cases hl : lookupKid kids s with
      | none => simp [findEnt, hl]
      | some ch =>
        simp only [hl] at h
        cases ch with
        | file fc fm => simp [findEnt, hl]
        | dir kc mc =>
          simp only [findEnt, hl]
          cases hr : writeSegs now content (Ent.dir kc mc) (r :: rest') with
          | ok c' => simp only [hr] at h; exact absurd h (by simp)
          | error e => exact ih kc mc hr c mt

/-- A successful create-and-copy on a directory returns a directory with
the same modification time. -/
theorem writeSegs_ok_dir (now : Nat) (content : List Nat) (kids : List (String × Ent))
    (m : Nat) (ps : List String) (e' : Ent)
    (h : writeSegs now content (Ent.dir kids m) ps = Except.ok e') :
    ∃ kids', e' = Ent.dir kids' m := by
  cases ps with
  | nil => exact absurd h (by simp [writeSegs])
  | cons s rest =>
    cases rest with
    | nil =>
      simp only [writeSegs] at h
      cases hl : lookupKid kids s with
      | none =>
        simp only [hl] at h
        exact ⟨insertKid kids s (Ent.file content now), by simpa using h.symm⟩
      | some ch =>
        simp only [hl] at h
        cases ch with
        | file fc fm =>
          exact ⟨insertKid kids s (Ent.file content now), by simpa using h.symm⟩
        | dir kc mc => exact absurd h (by simp)
    | cons r rest' =>
      simp only [writeSegs] at h
      cases hl : lookupKid kids s with
      | none => rw [hl] at h; exact absurd h (by simp)
      | some ch =>
        simp only [hl] at h
        cases ch with
        | file fc fm => exact absurd h (by simp)
        | dir kc mc =>
          cases hr : writeSegs now content (Ent.dir kc mc) (r :: rest') with
          | error e => simp only [hr] at h; exact absurd h (by simp)
          | ok c' => simp only [hr] at h; exact ⟨insertKid kids s c', by simpa using h.symm⟩

/-- After a successful create-and-copy, the written file sits at the
target path. -/
theorem writeSegs_ok_file_at (now : Nat) (content : List Nat) (ps : List String) :
    ∀ (e e' : Ent), writeSegs now content e ps = Except.ok e' →
    findEnt e' ps = StatRes.found (Ent.file content now) := by
  induction ps with
  | nil =>
    intro e e' h
    cases e with
    | file fc fm => exact absurd h (by simp [writeSegs])
    | dir kids m => exact absurd h (by simp [writeSegs])
  | cons s rest ih =>
    intro e e' h
    cases e with
    | file fc fm => exact absurd h (by simp [writeSegs])
    | dir kids m =>
      cases rest with
      | nil =>
        simp only [writeSegs] at h
        cases hl : lookupKid kids s with
        | none =>
          simp only [hl] at h
          have he' : e' = Ent.dir (insertKid kids s (Ent.file content now)) m := by
            simpa using h.symm
          subst he'
          simp [findEnt, lookup_insertKid_self]
        | some ch =>
          simp only [hl] at h
          cases ch with
          | file fc fm =>
            have he' : e' = Ent.dir (insertKid kids s (Ent.file content now)) m := by
              simpa using h.symm
            subst he'
            simp [findEnt, lookup_insertKid_self]
          | dir kc mc => exact absurd h (by simp)
      | cons r rest' =>
        simp only [writeSegs] at h
        cases hl : lookupKid kids s with
        | none => rw [hl] at h; exact absurd h (by simp)
        | some ch =>
          simp only [hl] at h
          cases ch with
          | file fc fm => exact absurd h (by simp)
          | dir kc mc =>
            cases hr : writeSegs now content (Ent.dir kc mc) (r :: rest') with
            | error e0 => simp only [hr] at h; exact absurd h (by simp)
            | ok c' =>
              simp only [hr] at h
              have he' : e' = Ent.dir (insertKid kids s c') m := by simpa using h.symm
              subst he'
              simp only [findEnt, lookup_insertKid_self]
              exact ih (Ent.dir kc mc) c' hr

/-- Removing a path that holds a regular file succeeds and leaves nothing
at the path. -/
theorem removeSegs_of_file_at (ps : List String) :
    ∀ (kids : List (String × Ent)) (m : Nat) (c : List Nat) (mt : Nat),
    findEnt (Ent.dir kids m) ps = StatRes.found (Ent.file c mt) →
    ∃ e'', removeSegs (Ent.dir kids m) ps = Except.ok e'' ∧
      findEnt e'' ps = StatRes.notExist := by
  induction ps with
  | nil => intro kids m c mt h; exact absurd h (by simp [findEnt])
  | cons s rest ih =>
    intro kids m c mt h
    simp only [findEnt] at h
    cases hl : lookupKid kids s with
    | none => rw [hl] at h; exact absurd h (by simp)
    | some ch =>
      simp only [hl] at h
      cases rest with
      | nil =>
        simp only [findEnt] at h
        cases ch with
        | dir kc mc => exact absurd h (by simp)
        | file fc fm =>
          refine ⟨Ent.dir (removeKid kids s) m, ?_, ?_⟩
          · simp [removeSegs, hl]
          · simp [findEnt, lookup_removeKid_self]
      | cons r rest' =>
        cases ch with
        | file fc fm => simp [findEnt] at h
        | dir kc mc =>
          obtain ⟨e'', hrm, hfe⟩ := ih kc mc c mt h
          refine ⟨Ent.dir (insertKid kids s e'') m, ?_, ?_⟩
          · simp [removeSegs, hl, hrm]
          · simp [findEnt, lookup_insertKid_self, hfe]

/-- `statSegs` without NUL bytes is plain navigation. -/
theorem statSegs_no_nul (root : Ent) (ps : List String)
    (h : ps.any segHasNul = false) : statSegs root ps = findEnt root ps := by
  simp [statSegs, h]

/-- A path with a NUL byte holds no regular file (the stat itself fails). -/
theorem isFileAt_nul (root : Ent) (ps : List String)
    (h : ps.any segHasNul = true) : isFileAt root ps = false := by
  simp [isFileAt, statSegs, h]

/-- If nothing at the path is a regular file, `isFileAt` is false. -/
theorem isFileAt_of_not_file (root : Ent) (ps : List String)
    (hn : ps.any segHasNul = false)
    (h : ∀ (c : List Nat) (mt : Nat), findEnt root ps ≠ StatRes.found (Ent.file c mt)) :
    isFileAt root ps = false := by
  unfold isFileAt
  rw [statSegs_no_nul root ps hn]
  cases hfe : findEnt root ps with
  | found e =>
    cases e with
    | file c mt => exact absurd hfe (h c mt)
    | dir k m2 => rfl
  | notExist => rfl
  | otherErr => rfl

/-- C8: for every key that passes path validation and every body stream
that fails partway, `PutObject` returns an error and no regular file
remains at the key's resolved path (the partially written file is removed;
earlier failures never created one). -/
theorem c8_failed_body_leaves_no_file
    (reg : String → String) (cwd basePath bucket : String) (now : Nat)
    (kids : List (String × Ent)) (m : Nat) (key contentType : String) (bytes : List Nat)
    (hval : validatePath cwd basePath bucket (keyToPath basePath bucket key) = none) :
    (putObject reg cwd basePath bucket now (Ent.dir kids m) key contentType
      ⟨bytes, true⟩).1 = Except.error StorageErr.ioError ∧
    isFileAt (putObject reg cwd basePath bucket now (Ent.dir kids m) key contentType
      ⟨bytes, true⟩).2 (segsOf (keyToPath basePath bucket key)) = false := by
  set ps := segsOf (keyToPath basePath bucket key) with hpsd
  by_cases hnul : ps.any segHasNul = true
  · -- a NUL byte anywhere: whatever state results, no file can be stat-ed
    refine ⟨?_, isFileAt_nul _ ps hnul⟩
    simp only [putObject, hval, ← hpsd]
    cases hmk : mkdirAllSegs now (Ent.dir kids m) ps.dropLast with
    | error e => simp [hmk]
    | ok r1 =>
      cases hw : writeAtSegs now r1 ps bytes with
      | error e => simp [hmk, hw]
      | ok r2 =>
        exact absurd hnul (by
          simp only [writeAtSegs] at hw
          rcases hb : ps.any segHasNul with _ | _
          · simp [hb]
          · rw [if_pos hb] at hw; exact absurd hw (by simp))
  · have hnul' : ps.any segHasNul = false := by simpa using hnul
    have hnulD : ps.dropLast.any segHasNul = false := by
      rcases hd : ps.dropLast.any segHasNul with _ | _
      · rfl
      · rcases List.any_eq_true.mp hd with ⟨x, hx, hq⟩
        exact absurd (List.any_eq_true.mpr
          ⟨x, (List.dropLast_sublist ps).subset hx, hq⟩) hnul
    simp only [putObject, hval, ← hpsd]
    cases hmk : mkdirAllSegs now (Ent.dir kids m) ps.dropLast with
    | error e =>
      simp only [hmk]
      refine ⟨by trivial, ?_⟩
      simp only [mkdirAllSegs, hnulD, Bool.false_eq_true, if_false] at hmk
      by_cases hps : ps = []
      · rw [hps] at hmk
        exact absurd hmk (by simp [mkdirSegs])
      · have hdecomp := List.dropLast_append_getLast hps
        have hnofile := mkdirSegs_error_no_file now ps.dropLast kids m hmk (ps.getLast hps)
        rw [hdecomp] at hnofile
        exact isFileAt_of_not_file _ ps hnul' hnofile
    | ok r1 =>
      simp only [mkdirAllSegs, hnulD, Bool.false_eq_true, if_false] at hmk
      obtain ⟨kids1, hr1⟩ := mkdirSegs_ok_dir now kids m _ r1 hmk
      subst hr1
      have hmk' : mkdirAllSegs now (Ent.dir kids m) ps.dropLast =
          Except.ok (Ent.dir kids1 m) := by
        simp [mkdirAllSegs, hnulD, hmk]
      simp only [hmk']
      cases hw : writeAtSegs now (Ent.dir kids1 m) ps bytes with
      | error e =>
        simp only [hw]
        refine ⟨by trivial, ?_⟩
        simp only [writeAtSegs, hnul', Bool.false_eq_true, if_false] at hw
        exact isFileAt_of_not_file _ ps hnul'
          (writeSegs_error_no_file now bytes ps kids1 m hw)
      | ok r2 =>
        simp only [hw]
        refine ⟨by trivial, ?_⟩
        simp only [writeAtSegs, hnul', Bool.false_eq_true, if_false] at hw
        obtain ⟨kids2, hr2⟩ := writeSegs_ok_dir now bytes kids1 m _ r2 hw
        subst hr2
        have hat := writeSegs_ok_file_at now bytes ps _ _ hw
        obtain ⟨e'', hrm, hgone⟩ := removeSegs_of_file_at ps kids2 m bytes now hat
        have hra : removeAtSegs (Ent.dir kids2 m) ps = Except.ok e'' := by
          simp [removeAtSegs, hnul', hrm]
        simp only [hra]
        exact isFileAt_of_not_file _ ps hnul' (by simp [hgone])

/-- Witness for C8 at a concrete key and failing two-byte body. -/
theorem c8_witness :
    (putObject emptyReg "/" "/data" "b" 7
      (Ent.dir [("data", Ent.dir [("b", Ent.dir [] 0)] 0)] 0) "a/b.txt" ""
      ⟨[1, 2], true⟩).1 = Except.error StorageErr.ioError ∧
    isFileAt (putObject emptyReg "/" "/data" "b" 7
      (Ent.dir [("data", Ent.dir [("b", Ent.dir [] 0)] 0)] 0) "a/b.txt" ""
      ⟨[1, 2], true⟩).2 (segsOf (keyToPath "/data" "b" "a/b.txt")) = false :=
  c8_failed_body_leaves_no_file emptyReg "/" "/data" "b" 7
    [("data", Ent.dir [("b", Ent.dir [] 0)] 0)] 0 "a/b.txt" "" [1, 2] rfl

/-- A successful `GetObject` always reports the content type guessed from
the key's extension (never a stored one — nothing is stored). -/
theorem getObject_ok_contentType (reg : String → String)
    (cwd basePath bucket : String) (root : Ent) (key : String) (obj : Obj)
    (rest : List Nat)
    (h : getObject reg cwd basePath bucket root key = Except.ok (obj, rest)) :
    obj.contentType = guessContentType reg key := by
  simp only [getObject] at h
  split at h
  · exact absurd h (by simp)
  · split at h
    · exact absurd h (by simp)
    · exact absurd h (by simp)
    · exact absurd h (by simp)
    · next c m heq =>
      rw [Except.ok.injEq, Prod.mk.injEq] at h
      rw [← h.1]

/-- A successful `HeadObject` always reports the content type guessed from
the key's extension. -/
theorem headObject_ok_contentType (reg : String → String)
    (cwd basePath bucket : String) (root : Ent) (key : String) (obj : Obj)
    (h : headObject reg cwd basePath bucket root key = Except.ok obj) :
    obj.contentType = guessContentType reg key := by
  simp only [headObject] at h
  split at h
  · exact absurd h (by simp)
  · split at h
    · exact absurd h (by simp)
    · exact absurd h (by simp)
    · exact absurd h (by simp)
    · next c m heq =>
      rw [Except.ok.injEq] at h
      rw [← h]

/-- The filesystem state `PutObject` produces does not depend on the
content-type argument (it is used only in the returned metadata). -/
theorem putObject_state_ct_independent (reg : String → String)
    (cwd basePath bucket : String) (now : Nat) (root : Ent) (key : String)
    (ct1 ct2 : String) (body : Body) :
    (putObject reg cwd basePath bucket now root key ct1 body).2 =
      (putObject reg cwd basePath bucket now root key ct2 body).2 := by
  simp only [putObject]
  split
  · rfl
  · split
    · rfl
    · split
      · rfl
      · split <;> rfl

/-- C10: the content type supplied to `PutObject` is not persisted: after
any put (with any content-type argument), a successful `GetObject` of any
key reports `guessContentType` of that key; so does `HeadObject`; and the
resulting filesystem state is identical for any two content-type
arguments. -/
theorem c10_content_type_not_persisted (reg : String → String)
    (cwd basePath bucket : String) (now : Nat) (root : Ent)
    (key ct k2 : String) (body : Body) (obj : Obj) (rest : List Nat)
    (hget : getObject reg cwd basePath bucket
        ((putObject reg cwd basePath bucket now root key ct body).2) k2 =
      Except.ok (obj, rest)) :
    obj.contentType = guessContentType reg k2 ∧
    (∀ obj2, headObject reg cwd basePath bucket
        ((putObject reg cwd basePath bucket now root key ct body).2) k2 =
        Except.ok obj2 →
      obj2.contentType = guessContentType reg k2) ∧
    ∀ ct2, (putObject reg cwd basePath bucket now root key ct2 body).2 =
      (putObject reg cwd basePath bucket now root key ct body).2 :=
  ⟨getObject_ok_contentType reg cwd basePath bucket _ k2 obj rest hget,
   fun obj2 h2 => headObject_ok_contentType reg cwd basePath bucket _ k2 obj2 h2,
   fun ct2 => putObject_state_ct_independent reg cwd basePath bucket now root key ct2 ct body⟩

/-- Witness for C10: a put with content type `text/weird` is followed by a
get that reports `image/png`, the type guessed from the `.png`
extension. -/
theorem c10_witness :
    getObject emptyReg "/" "/data" "b"
        ((putObject emptyReg "/" "/data" "b" 7 bucketOnlyRoot "p.png" "text/weird"
          ⟨[1], false⟩).2) "p.png" =
      Except.ok ({ key := "p.png", size := 1, lastModified := 7,
                   contentType := "image/png", etag := "\"7-1\"" }, [1]) ∧
    ({ key := "p.png", size := 1, lastModified := 7, contentType := "image/png",
       etag := "\"7-1\"" } : Obj).contentType = guessContentType emptyReg "p.png" :=
  ⟨rfl,
    (c10_content_type_not_persisted emptyReg "/" "/data" "b" 7 bucketOnlyRoot
      "p.png" "text/weird" "p.png" ⟨[1], false⟩ _ [1] rfl).1⟩

/-- C7: for a request with a well-formed `Authorization` header carrying
the configured access key and a well-formed `X-Amz-Date`, the validator
rejects with `ExpiredOrFutureTimestamp` exactly when the absolute
difference between the parsed timestamp and the current time exceeds 15
minutes; at or below 15 minutes the window check passes (the result is
then the signature check's, never the timestamp error). -/
theorem c7_timestamp_window (creds : Credentials) (now : Int) (r : Request)
    (auth : AuthHeader) (t : Int)
    (hparse : parseAuthHeader (headerGet r "Authorization") = some auth)
    (hkey : auth.accessKey = creds.accessKey)
    (hdate : parseAmzDate (headerGet r "X-Amz-Date") = some t) :
    (validateRequest creds now r = Except.error AuthError.expiredOrFutureTimestamp ↔
      15 * 60 < |now - t|) := by
  have hne : ¬ headerGet r "Authorization" = "" := by
    intro h0
    rw [h0] at hparse
    have hnone : parseAuthHeader "" = none := by decide
    rw [hnone] at hparse
    exact absurd hparse (by simp)
  have hdne : ¬ headerGet r "X-Amz-Date" = "" := by
    intro h0
    rw [h0] at hdate
    have hnone : parseAmzDate "" = none := by decide
    rw [hnone] at hdate
    exact absurd hdate (by simp)
  have habs : (if now - t < 0 then -(now - t) else now - t) = |now - t| := by
    rcases lt_or_le (now - t) 0 with h | h
    · simp [h, abs_of_neg h]
    · simp [not_lt.mpr h, abs_of_nonneg h]
  have hmain : validateRequest creds now r =
      (if 15 * 60 < |now - t| then Except.error AuthError.expiredOrFutureTimestamp
       else if auth.signature =
           calculateSignature creds r auth (headerGet r "X-Amz-Date")
         then Except.ok () else Except.error AuthError.signatureMismatch) := by
    simp only [validateRequest, hne, ite_false, if_false, hparse, hkey, ne_eq,
      not_true_eq_false, hdne, hdate, habs, gt_iff_lt]
  rw [hmain]
  by_cases hgt : 15 * 60 < |now - t|
  · rw [if_pos hgt]
    exact iff_of_true rfl hgt
  · rw [if_neg hgt]
    constructor
    · intro h
      split at h <;> exact absurd h (by simp)
    · intro h
      exact absurd h hgt

/-- Witness for C7 at a concrete request, 901 seconds after its
timestamp: the validator reports `ExpiredOrFutureTimestamp`. -/
theorem c7_witness :
    validateRequest creds7 (1767225600 + 901) req7 =
      Except.error AuthError.expiredOrFutureTimestamp :=
  (c7_timestamp_window creds7 (1767225600 + 901) req7 auth7 1767225600
    (by decide) rfl (by decide)).mpr (by decide)

/-- C9: the validator never reads the request body — two requests equal in
everything but the body bytes validate identically (the declared
`X-Amz-Content-Sha256` header is used verbatim as the payload hash). -/
theorem c9_body_independent (creds : Credentials) (now : Int) (r : Request)
    (b1 b2 : List Nat) :
    validateRequest creds now { r with body := b1 } =
      validateRequest creds now { r with body := b2 } := rfl

mutual

/-- The walk of one entry is the collect-then-filter-then-build pipeline:
the prefix filter acts on the *raw* relative path, before the trailing
slash is appended. -/
theorem walkEnt_filter_collect (reg : String → String) (pfx : String) :
    (rel : String) → (e : Ent) →
    walkEnt reg pfx rel e =
      ((collectEnt rel e).filter
        (fun pr => decide (pfx = "") || startsWithStr pr.1 pfx)).map
        (fun pr => mkWalkObj reg pr.1 pr.2)
  | rel, Ent.file c mt => by
    simp only [walkEnt, collectEnt, List.filter_cons]
    by_cases hk : pfx = ""
    · simp [hk]
    · by_cases hs : startsWithStr rel pfx = true
      · simp [hk, hs]
      · simp [hk, hs]
  | rel, Ent.dir kids mt => by
    simp only [walkEnt, collectEnt, List.filter_cons,
      walkKids_filter_collect reg pfx rel kids]
    by_cases hk : pfx = ""
    · simp [hk]
    · by_cases hs : startsWithStr rel pfx = true
      · simp [hk, hs]
      · simp [hk, hs]
termination_by structural rel e => e

/-- The walk of a child list is the collect-then-filter-then-build
pipeline. -/
theorem walkKids_filter_collect (reg : String → String) (pfx : String) :
    (rel : String) → (kids : List (String × Ent)) →
    walkKids reg pfx rel kids =
      ((collectKids rel kids).filter
        (fun pr => decide (pfx = "") || startsWithStr pr.1 pfx)).map
        (fun pr => mkWalkObj reg pr.1 pr.2)
  | rel, [] => by simp [walkKids, collectKids]
  | rel, (n, c) :: rest => by
    rw [walkKids, walkEnt_filter_collect reg pfx (childRel rel n) c,
      walkKids_filter_collect reg pfx rel rest]
    simp [collectKids, List.filter_append]
termination_by structural rel kids => kids

end

/-- C5 (amended): `ListObjects` returns exactly the walk entries of the
bucket subtree whose *raw* relative path (before the trailing `/` is
appended for directories) starts with the prefix, the empty prefix
matching everything; keys are then built by appending `/` for
directories. -/
theorem c5_amended_filter_on_raw_path (reg : String → String)
    (basePath bucket : String) (root : Ent) (pfx : String) :
    listObjects reg basePath bucket root pfx =
      match statSegs root (segsOf (goJoin [basePath, bucket])) with
      | StatRes.found (Ent.dir kids _) =>
        Except.ok (((collectKids "" kids).filter
          (fun pr => decide (pfx = "") || startsWithStr pr.1 pfx)).map
          (fun pr => mkWalkObj reg pr.1 pr.2))
      | StatRes.found (Ent.file _ _) => Except.ok []
      | StatRes.notExist => Except.error StorageErr.ioError
      | StatRes.otherErr => Except.error StorageErr.ioError := by
  simp only [listObjects]
  cases hx : statSegs root (segsOf (goJoin [basePath, bucket])) with
  | found e =>
    cases e with
    | file c mt => rfl
    | dir kids mt => exact congrArg Except.ok (walkKids_filter_collect reg pfx "" kids)
  | notExist => rfl
  | otherErr => rfl

end SelfhostS3
